import Mathlib

/-
Verification of the access-check core of the repository: the function
userHasScopes in packages/cli/src/permissions.ee/check-access.ts.

The embedding is shallow. The external collaborators of the function
(hasGlobalScope and rolesWithScope from the permissions package, and the
two repository reads findOneBy on SharedWorkflowRepository and
SharedCredentialsRepository) are passed in as an explicit environment of
pure functions, mirroring the dependency-injection reading of the design.
The outcome of a call records, next to the decision, the repository reads
that were performed, so that claims about lookups being skipped are
statable. JavaScript truthiness of optional string identifiers (undefined
and the empty string are falsy) is modelled explicitly.
-/

namespace CheckAccess

/-- One element of the projectRoles list on the user entity: a pair of a
project id and an opaque role tag. -/
structure ProjectRoleAssignment where
  projectId : String
  role : String
deriving DecidableEq, Repr

/-- The user snapshot read by userHasScopes. The projectRoles column is
nullable json, hence an optional list. The global role is an opaque tag;
userHasScopes itself only passes the user to hasGlobalScope, which per the
design is a pure function of the global role and the scopes. -/
structure User where
  globalRole : String
  projectRoles : Option (List ProjectRoleAssignment)
deriving DecidableEq, Repr

/-- The external collaborators consumed by userHasScopes.

hasGlobalScope is modelled from the spec: the permissions package is not
among the given sources, and section 4.1 describes hasGlobalScope as a
pure, side-effect-free function over the global role of the user and the
required scopes (mode allOf); it is therefore a function of the global
role and the scope list here.

rolesWithScope maps a resource kind and a scope list to the list of roles
granting all of those scopes (an opaque external grant mapping).

sharedWorkflowProjectId w models
Container.get(SharedWorkflowRepository).findOneBy on workflowId w: some
projectId of the record found, or none when findOneBy yields null.
sharedCredentialProjectId models the analogous read on
SharedCredentialsRepository by credentialsId. -/
structure Env where
  hasGlobalScope : String → List String → Bool
  rolesWithScope : String → List String → List String
  sharedWorkflowProjectId : String → Option String
  sharedCredentialProjectId : String → Option String

/-- The destructured last argument of userHasScopes: three optional string
identifiers. -/
structure ResourceIds where
  credentialId : Option String
  workflowId : Option String
  projectId : Option String
deriving DecidableEq, Repr

/-- JavaScript truthiness of an optional string: undefined (none) and the
empty string are falsy, every other string is truthy. -/
def truthy : Option String → Bool
  | none => false
  | some s => !(s == "")

/-- The decision of one call of userHasScopes: a returned boolean, or the
thrown UnexpectedError. -/
inductive CheckResult where
  | granted : Bool → CheckResult
  | unexpectedError : CheckResult
deriving DecidableEq, Repr

/-- The observable outcome of one call: the decision together with the
ids on which the workflow-sharing and the credential-sharing repository
were read, in order. -/
structure Outcome where
  result : CheckResult
  workflowLookups : List String
  credentialLookups : List String
deriving DecidableEq, Repr

/-- The first resolution step inside the projectRoles branch: when
currentProjectId is falsy and a truthy workflowId is present, read the
workflow-sharing record; when a record is found its projectId becomes
currentProjectId. Returns the new currentProjectId and the reads done. -/
def resolveViaWorkflow (env : Env) (current : Option String)
    (workflowId : Option String) : Option String × List String :=
  match workflowId with
  | none => (current, [])
  | some w =>
    if !(truthy current) && !(w == "") then
      match env.sharedWorkflowProjectId w with
      | some pid => (some pid, [w])
      | none => (current, [w])
    else (current, [])

/-- The second resolution step: when currentProjectId is still falsy and a
truthy credentialId is present, read the credential-sharing record; when a
record is found its projectId becomes currentProjectId. -/
def resolveViaCredential (env : Env) (current : Option String)
    (credentialId : Option String) : Option String × List String :=
  match credentialId with
  | none => (current, [])
  | some c =>
    if !(truthy current) && !(c == "") then
      match env.sharedCredentialProjectId c with
      | some pid => (some pid, [c])
      | none => (current, [c])
    else (current, [])

/-- Role evaluation against a resolved currentProjectId: when it is truthy,
find the first projectRoles entry for that exact project id; when one
exists, test membership of its role in rolesWithScope applied to resource
kind project and the required scopes. Yields false in every other case. -/
def projectRoleGrants (env : Env) (scopes : List String)
    (prs : List ProjectRoleAssignment) (current : Option String) : Bool :=
  match current with
  | none => false
  | some c =>
    if c == "" then false
    else
      match prs.find? (fun pr => pr.projectId == c) with
      | none => false
      | some pr => (env.rolesWithScope "project" scopes).contains pr.role

/-- The body of the projectRoles branch of userHasScopes: resolution of
currentProjectId (explicit projectId, else workflow-derived, else
credential-derived) followed by role evaluation. Yields the boolean of the
evaluation and the two lookup logs. -/
def resolveAndEvaluate (env : Env) (scopes : List String)
    (prs : List ProjectRoleAssignment) (ids : ResourceIds) :
    Bool × List String × List String :=
  let s1 := resolveViaWorkflow env ids.projectId ids.workflowId
  let s2 := resolveViaCredential env s1.1 ids.credentialId
  (projectRoleGrants env scopes prs s2.1, s1.2, s2.2)

/-- The guard of the projectRoles block of the source: the block runs only
when the projectRoles list is present and non-empty; otherwise the block
contributes no grant and no reads. -/
def projectRolesBranch (env : Env) (scopes : List String) (user : User)
    (ids : ResourceIds) : Bool × List String × List String :=
  match user.projectRoles with
  | none => (false, [], [])
  | some prs =>
    if 0 < prs.length then resolveAndEvaluate env scopes prs ids
    else (false, [], [])

/-- The tail of userHasScopes after the projectRoles block: return true
when the block granted; otherwise return false when any of the three
identifiers is truthy; otherwise throw UnexpectedError. -/
def decisionOf (ids : ResourceIds)
    (branch : Bool × List String × List String) : Outcome :=
  if branch.1 then
    Outcome.mk (CheckResult.granted true) branch.2.1 branch.2.2
  else if truthy ids.projectId || truthy ids.workflowId
      || truthy ids.credentialId then
    Outcome.mk (CheckResult.granted false) branch.2.1 branch.2.2
  else
    Outcome.mk CheckResult.unexpectedError branch.2.1 branch.2.2

/-- Shallow embedding of userHasScopes from check-access.ts. Control flow
of the source: return true when hasGlobalScope holds; return false when
globalOnly; inside the branch guarded by a present and non-empty
projectRoles list, resolve currentProjectId and return true when the role
evaluation succeeds; after the branch, return false when any of the three
identifiers is truthy; otherwise throw UnexpectedError. -/
def userHasScopes (env : Env) (user : User) (scopes : List String)
    (globalOnly : Bool) (ids : ResourceIds) : Outcome :=
  if env.hasGlobalScope user.globalRole scopes then
    Outcome.mk (CheckResult.granted true) [] []
  else if globalOnly then
    Outcome.mk (CheckResult.granted false) [] []
  else
    decisionOf ids (projectRolesBranch env scopes user ids)

/-! Helper lemmas about the resolution steps. -/

lemma resolveViaWorkflow_skip (env : Env) (c : Option String)
    (w : Option String) (hc : truthy c = true) :
    resolveViaWorkflow env c w = (c, []) := by
  cases w with
  | none => rfl
  | some s => simp [resolveViaWorkflow, hc]

lemma resolveViaWorkflow_falsy (env : Env) (c : Option String)
    (w : Option String) (hw : truthy w = false) :
    resolveViaWorkflow env c w = (c, []) := by
  cases w with
  | none => rfl
  | some s =>
    simp only [truthy, Bool.not_eq_false', beq_iff_eq] at hw
    simp [resolveViaWorkflow, hw]

lemma resolveViaCredential_skip (env : Env) (c : Option String)
    (cr : Option String) (hc : truthy c = true) :
    resolveViaCredential env c cr = (c, []) := by
  cases cr with
  | none => rfl
  | some s => simp [resolveViaCredential, hc]

lemma resolveViaCredential_falsy (env : Env) (c : Option String)
    (cr : Option String) (hcr : truthy cr = false) :
    resolveViaCredential env c cr = (c, []) := by
  cases cr with
  | none => rfl
  | some s =>
    simp only [truthy, Bool.not_eq_false', beq_iff_eq] at hcr
    simp [resolveViaCredential, hcr]

lemma projectRoleGrants_falsy (env : Env) (scopes : List String)
    (prs : List ProjectRoleAssignment) (c : Option String)
    (hc : truthy c = false) :
    projectRoleGrants env scopes prs c = false := by
  cases c with
  | none => rfl
  | some s =>
    simp only [truthy, Bool.not_eq_false', beq_iff_eq] at hc
    simp [projectRoleGrants, hc]

lemma resolveAndEvaluate_truthy_projectId (env : Env) (scopes : List String)
    (prs : List ProjectRoleAssignment) (ids : ResourceIds)
    (hp : truthy ids.projectId = true) :
    resolveAndEvaluate env scopes prs ids =
      (projectRoleGrants env scopes prs ids.projectId, [], []) := by
  simp only [resolveAndEvaluate]
  rw [resolveViaWorkflow_skip env ids.projectId ids.workflowId hp]
  rw [resolveViaCredential_skip env ids.projectId ids.credentialId hp]

lemma resolveAndEvaluate_all_falsy (env : Env) (scopes : List String)
    (prs : List ProjectRoleAssignment) (ids : ResourceIds)
    (hp : truthy ids.projectId = false)
    (hw : truthy ids.workflowId = false)
    (hc : truthy ids.credentialId = false) :
    resolveAndEvaluate env scopes prs ids = (false, [], []) := by
  simp only [resolveAndEvaluate]
  rw [resolveViaWorkflow_falsy env ids.projectId ids.workflowId hw]
  rw [resolveViaCredential_falsy env ids.projectId ids.credentialId hc]
  rw [projectRoleGrants_falsy env scopes prs ids.projectId hp]

/-! Concrete instances used by the witness theorems. -/

/-- A concrete environment whose global check always fails, whose grant
mapping lets the role admin grant every scope on kind project, and whose
sharing records map workflow W1 and credential C1 to project P1. -/
def wEnvDeny : Env :=
  Env.mk (fun _ _ => false)
    (fun k _ => if k == "project" then ["admin"] else [])
    (fun w => if w == "W1" then some "P1" else none)
    (fun c => if c == "C1" then some "P1" else none)

/-- A concrete environment whose global check always succeeds. -/
def wEnvGrant : Env :=
  Env.mk (fun _ _ => true) (fun _ _ => []) (fun _ => none) (fun _ => none)

/-- A concrete user holding the role admin in project P1. -/
def wUser : User :=
  User.mk "viewer" (some [ProjectRoleAssignment.mk "P1" "admin"])

/-! More helper lemmas: active resolution steps, equation forms, and
congruence of the evaluation in the environment. -/

lemma resolveViaWorkflow_active (env : Env) (c : Option String) (w : String)
    (hc : truthy c = false) (hw : w ≠ "") :
    resolveViaWorkflow env c (some w) =
      (match env.sharedWorkflowProjectId w with
       | some pid => (some pid, [w])
       | none => (c, [w])) := by
  have hwb : (w == "") = false := by simpa using hw
  simp [resolveViaWorkflow, hc, hwb]

lemma resolveViaCredential_active (env : Env) (c : Option String)
    (cr : String) (hc : truthy c = false) (hcr : cr ≠ "") :
    resolveViaCredential env c (some cr) =
      (match env.sharedCredentialProjectId cr with
       | some pid => (some pid, [cr])
       | none => (c, [cr])) := by
  have hb : (cr == "") = false := by simpa using hcr
  simp [resolveViaCredential, hc, hb]

lemma projectRolesBranch_some (env : Env) (scopes : List String) (u : User)
    (ids : ResourceIds) (prs : List ProjectRoleAssignment)
    (h : u.projectRoles = some prs) :
    projectRolesBranch env scopes u ids =
      if 0 < prs.length then resolveAndEvaluate env scopes prs ids
      else (false, [], []) := by
  unfold projectRolesBranch
  rw [h]

lemma decisionOf_result_granted (ids : ResourceIds)
    (b : Bool × List String × List String)
    (hany : (truthy ids.projectId || truthy ids.workflowId
        || truthy ids.credentialId) = true) :
    (decisionOf ids b).result = CheckResult.granted b.1 := by
  unfold decisionOf
  cases hb : b.1 <;> simp [hb, hany]

lemma decisionOf_same_when_truthy (ids ids2 : ResourceIds)
    (b : Bool × List String × List String)
    (hp : truthy ids.projectId = true) (hp2 : truthy ids2.projectId = true) :
    decisionOf ids b = decisionOf ids2 b := by
  simp [decisionOf, hp, hp2]

lemma resolveViaWorkflow_congr (e1 e2 : Env) (c w : Option String)
    (h : e1.sharedWorkflowProjectId = e2.sharedWorkflowProjectId) :
    resolveViaWorkflow e1 c w = resolveViaWorkflow e2 c w := by
  unfold resolveViaWorkflow
  rw [h]

lemma resolveViaCredential_congr (e1 e2 : Env) (c cr : Option String)
    (h : e1.sharedCredentialProjectId = e2.sharedCredentialProjectId) :
    resolveViaCredential e1 c cr = resolveViaCredential e2 c cr := by
  unfold resolveViaCredential
  rw [h]

lemma projectRoleGrants_congr (e1 e2 : Env) (scopes : List String)
    (prs : List ProjectRoleAssignment) (c : Option String)
    (h : e1.rolesWithScope "project" scopes =
      e2.rolesWithScope "project" scopes) :
    projectRoleGrants e1 scopes prs c = projectRoleGrants e2 scopes prs c := by
  unfold projectRoleGrants
  rw [h]

lemma resolveAndEvaluate_congr (e1 e2 : Env) (scopes : List String)
    (prs : List ProjectRoleAssignment) (ids : ResourceIds)
    (h2 : e1.sharedWorkflowProjectId = e2.sharedWorkflowProjectId)
    (h3 : e1.sharedCredentialProjectId = e2.sharedCredentialProjectId)
    (h4 : e1.rolesWithScope "project" scopes =
      e2.rolesWithScope "project" scopes) :
    resolveAndEvaluate e1 scopes prs ids = resolveAndEvaluate e2 scopes prs ids := by
  simp only [resolveAndEvaluate]
  rw [resolveViaWorkflow_congr e1 e2 ids.projectId ids.workflowId h2]
  rw [resolveViaCredential_congr e1 e2 _ ids.credentialId h3]
  rw [projectRoleGrants_congr e1 e2 scopes prs _ h4]

lemma projectRolesBranch_congr (e1 e2 : Env) (scopes : List String)
    (u : User) (ids : ResourceIds)
    (h2 : e1.sharedWorkflowProjectId = e2.sharedWorkflowProjectId)
    (h3 : e1.sharedCredentialProjectId = e2.sharedCredentialProjectId)
    (h4 : e1.rolesWithScope "project" scopes =
      e2.rolesWithScope "project" scopes) :
    projectRolesBranch e1 scopes u ids = projectRolesBranch e2 scopes u ids := by
  unfold projectRolesBranch
  cases hu : u.projectRoles with
  | none => rfl
  | some prs =>
    simp only []
    rw [resolveAndEvaluate_congr e1 e2 scopes prs ids h2 h3 h4]

/-! Structural lemmas about the decision tail. -/

lemma decisionOf_lookups (ids : ResourceIds)
    (b : Bool × List String × List String) :
    (decisionOf ids b).workflowLookups = b.2.1 ∧
    (decisionOf ids b).credentialLookups = b.2.2 := by
  unfold decisionOf
  split
  · exact ⟨rfl, rfl⟩
  · split <;> exact ⟨rfl, rfl⟩

/-! Theorems for the claims. -/

/-- C2: whenever the global role of the user grants all required scopes,
userHasScopes returns true, for every combination of resource identifiers
and every value of globalOnly, with no repository lookup performed. -/
theorem userHasScopes_global_grant (env : Env) (user : User)
    (scopes : List String) (globalOnly : Bool) (ids : ResourceIds)
    (h : env.hasGlobalScope user.globalRole scopes = true) :
    userHasScopes env user scopes globalOnly ids =
      Outcome.mk (CheckResult.granted true) [] [] := by
  simp [userHasScopes, h]

/-- Witness for C2 at a concrete environment, user and identifier set. -/
theorem userHasScopes_global_grant_witness :
    userHasScopes wEnvGrant wUser ["scope:a"] false
        (ResourceIds.mk (some "C1") (some "W1") (some "P1")) =
      Outcome.mk (CheckResult.granted true) [] [] :=
  userHasScopes_global_grant wEnvGrant wUser ["scope:a"] false
    (ResourceIds.mk (some "C1") (some "W1") (some "P1")) rfl

/-- C3: whenever the global check fails and globalOnly is true,
userHasScopes returns false with zero repository lookups, regardless of
the supplied resource identifiers. -/
theorem userHasScopes_globalOnly_denied (env : Env) (user : User)
    (scopes : List String) (ids : ResourceIds)
    (h : env.hasGlobalScope user.globalRole scopes = false) :
    userHasScopes env user scopes true ids =
      Outcome.mk (CheckResult.granted false) [] [] := by
  simp [userHasScopes, h]

/-- Witness for C3 at a concrete environment, user and identifier set. -/
theorem userHasScopes_globalOnly_denied_witness :
    userHasScopes wEnvDeny wUser ["scope:a"] true
        (ResourceIds.mk (some "C1") (some "W1") (some "P1")) =
      Outcome.mk (CheckResult.granted false) [] [] :=
  userHasScopes_globalOnly_denied wEnvDeny wUser ["scope:a"]
    (ResourceIds.mk (some "C1") (some "W1") (some "P1")) rfl

/-- C1: the UnexpectedError is thrown exactly when the global check fails,
globalOnly is false, and none of the three identifiers is truthy; and
whenever at least one identifier is truthy the call returns a plain
boolean, never the error. -/
theorem userHasScopes_error_characterization (env : Env) (u : User)
    (scopes : List String) (g : Bool) (ids : ResourceIds) :
    ((userHasScopes env u scopes g ids).result =
        CheckResult.unexpectedError ↔
      (env.hasGlobalScope u.globalRole scopes = false ∧ g = false ∧
        truthy ids.projectId = false ∧ truthy ids.workflowId = false ∧
        truthy ids.credentialId = false)) ∧
    ((truthy ids.projectId || truthy ids.workflowId
        || truthy ids.credentialId) = true →
      ∃ b : Bool, (userHasScopes env u scopes g ids).result =
        CheckResult.granted b) := by
  cases hG : env.hasGlobalScope u.globalRole scopes with
  | true =>
    refine ⟨by simp [userHasScopes, hG], fun _ => ⟨true, by simp [userHasScopes, hG]⟩⟩
  | false =>
    cases g with
    | true =>
      refine ⟨by simp [userHasScopes, hG], fun _ => ⟨false, by simp [userHasScopes, hG]⟩⟩
    | false =>
      have hmain : userHasScopes env u scopes false ids =
          decisionOf ids (projectRolesBranch env scopes u ids) := by
        simp [userHasScopes, hG]
      cases hany : (truthy ids.projectId || truthy ids.workflowId
          || truthy ids.credentialId) with
      | true =>
        obtain ⟨b, hb⟩ : ∃ b : Bool, (userHasScopes env u scopes false ids).result
            = CheckResult.granted b := by
          rw [hmain]
          unfold decisionOf
          split
          · exact ⟨true, rfl⟩
          · simp [hany]
        constructor
        · constructor
          · intro h
            rw [hb] at h
            exact absurd h (by simp)
          · rintro ⟨-, -, h1, h2, h3⟩
            rw [h1, h2, h3] at hany
            simp at hany
        · exact fun _ => ⟨b, hb⟩
      | false =>
        obtain ⟨⟨hp, hw⟩, hc⟩ : (truthy ids.projectId = false ∧
            truthy ids.workflowId = false) ∧ truthy ids.credentialId = false := by
          simpa using hany
        have hb : projectRolesBranch env scopes u ids = (false, [], []) := by
          cases hroles : u.projectRoles with
          | none => simp [projectRolesBranch, hroles]
          | some prs =>
            simp only [projectRolesBranch, hroles]
            split
            · exact resolveAndEvaluate_all_falsy env scopes prs ids hp hw hc
            · rfl
        constructor
        · rw [hmain, hb]
          unfold decisionOf
          simp [hp, hw, hc, hG]
        · intro h
          simp [hany] at h

/-- Witness for C1: evaluating at a concrete input with no identifiers. -/
theorem userHasScopes_error_characterization_witness :
    (userHasScopes wEnvDeny wUser ["scope:a"] false
        (ResourceIds.mk none none none)).result =
      CheckResult.unexpectedError :=
  (userHasScopes_error_characterization wEnvDeny wUser ["scope:a"] false
      (ResourceIds.mk none none none)).1.mpr ⟨rfl, rfl, rfl, rfl, rfl⟩

/-- C7: with the global check failing, globalOnly false and at least one
truthy identifier, a null or empty projectRoles collection yields a plain
false (never an error), and a user with a null collection behaves exactly
like one with an empty collection on all inputs. -/
theorem userHasScopes_null_or_empty_roles (env : Env) (u : User)
    (scopes : List String) (ids : ResourceIds)
    (hg : env.hasGlobalScope u.globalRole scopes = false)
    (hr : u.projectRoles = none ∨ u.projectRoles = some [])
    (hid : (truthy ids.projectId || truthy ids.workflowId
        || truthy ids.credentialId) = true) :
    userHasScopes env u scopes false ids =
      Outcome.mk (CheckResult.granted false) [] [] ∧
    ∀ (r : String) (scopes2 : List String) (g2 : Bool) (ids2 : ResourceIds),
      userHasScopes env (User.mk r none) scopes2 g2 ids2 =
        userHasScopes env (User.mk r (some [])) scopes2 g2 ids2 := by
  constructor
  · have hb : projectRolesBranch env scopes u ids = (false, [], []) := by
      rcases hr with h | h <;> simp [projectRolesBranch, h]
    simp [userHasScopes, hg, hb, decisionOf, hid]
  · intro r scopes2 g2 ids2
    rfl

/-- Witness for C7 at a concrete input with a null collection. -/
theorem userHasScopes_null_or_empty_roles_witness :
    userHasScopes wEnvDeny (User.mk "viewer" none) ["scope:a"] false
        (ResourceIds.mk none none (some "P1")) =
      Outcome.mk (CheckResult.granted false) [] [] :=
  (userHasScopes_null_or_empty_roles wEnvDeny (User.mk "viewer" none)
      ["scope:a"] (ResourceIds.mk none none (some "P1")) rfl (Or.inl rfl) rfl).1

/-- C8: userHasScopes is deterministic: equal environments, user
snapshots, scope lists, flags and identifier sets yield equal outcomes. -/
theorem userHasScopes_deterministic (env1 env2 : Env) (u1 u2 : User)
    (s1 s2 : List String) (g1 g2 : Bool) (ids1 ids2 : ResourceIds)
    (henv : env1 = env2) (hu : u1 = u2) (hs : s1 = s2) (hg : g1 = g2)
    (hi : ids1 = ids2) :
    userHasScopes env1 u1 s1 g1 ids1 = userHasScopes env2 u2 s2 g2 ids2 := by
  subst henv; subst hu; subst hs; subst hg; subst hi; rfl

/-- Witness for C8 at a concrete repeated invocation. -/
theorem userHasScopes_deterministic_witness :
    userHasScopes wEnvDeny wUser ["scope:a"] false
        (ResourceIds.mk none none (some "P1")) =
      userHasScopes wEnvDeny wUser ["scope:a"] false
        (ResourceIds.mk none none (some "P1")) :=
  userHasScopes_deterministic wEnvDeny wEnvDeny wUser wUser ["scope:a"]
    ["scope:a"] false false (ResourceIds.mk none none (some "P1"))
    (ResourceIds.mk none none (some "P1")) rfl rfl rfl rfl rfl

/-- C9: with a null or empty projectRoles collection, the global check
failing and globalOnly false, no repository read is performed at all, for
every combination of supplied identifiers. -/
theorem userHasScopes_no_lookup_without_roles (env : Env) (u : User)
    (scopes : List String) (ids : ResourceIds)
    (hg : env.hasGlobalScope u.globalRole scopes = false)
    (hr : u.projectRoles = none ∨ u.projectRoles = some []) :
    (userHasScopes env u scopes false ids).workflowLookups = [] ∧
    (userHasScopes env u scopes false ids).credentialLookups = [] := by
  have hb : projectRolesBranch env scopes u ids = (false, [], []) := by
    rcases hr with h | h <;> simp [projectRolesBranch, h]
  have hmain : userHasScopes env u scopes false ids =
      decisionOf ids (false, [], []) := by
    simp [userHasScopes, hg, hb]
  rw [hmain]
  simpa using decisionOf_lookups ids (false, [], [])

/-- C6: when a truthy projectId is supplied, the outcome equals the
outcome of the same call with workflowId removed, the workflow repository
is never read, and the outcome is independent of the workflow-sharing
lookup function. -/
theorem userHasScopes_projectId_precedence (env : Env) (u : User)
    (scopes : List String) (g : Bool) (ids : ResourceIds)
    (hp : truthy ids.projectId = true) :
    userHasScopes env u scopes g ids =
      userHasScopes env u scopes g
        (ResourceIds.mk ids.credentialId none ids.projectId) ∧
    (userHasScopes env u scopes g ids).workflowLookups = [] ∧
    ∀ f : String → Option String,
      userHasScopes
          (Env.mk env.hasGlobalScope env.rolesWithScope f
            env.sharedCredentialProjectId) u scopes g ids =
        userHasScopes env u scopes g ids := by
  have hrb : ∀ (e : Env) (ids3 : ResourceIds), ids3.projectId = ids.projectId →
      projectRolesBranch e scopes u ids3 =
        (match u.projectRoles with
         | none => (false, [], [])
         | some prs =>
           if 0 < prs.length then
             (projectRoleGrants e scopes prs ids.projectId, [], [])
           else (false, [], [])) := by
    intro e ids3 h3
    unfold projectRolesBranch
    cases hu : u.projectRoles with
    | none => rfl
    | some prs =>
      simp only []
      split
      · rw [resolveAndEvaluate_truthy_projectId e scopes prs ids3
          (by rw [h3]; exact hp), h3]
      · rfl
  cases hG : env.hasGlobalScope u.globalRole scopes with
  | true =>
    refine ⟨by simp [userHasScopes, hG], by simp [userHasScopes, hG],
      fun f => by simp [userHasScopes, hG]⟩
  | false =>
    cases g with
    | true =>
      refine ⟨by simp [userHasScopes, hG], by simp [userHasScopes, hG],
        fun f => by simp [userHasScopes, hG]⟩
    | false =>
      have hmain : ∀ (e : Env) (ids3 : ResourceIds),
          e.hasGlobalScope u.globalRole scopes = false →
          userHasScopes e u scopes false ids3 =
            decisionOf ids3 (projectRolesBranch e scopes u ids3) := by
        intro e ids3 he
        simp [userHasScopes, he]
      refine ⟨?_, ?_, ?_⟩
      · rw [hmain env ids hG, hmain env (ResourceIds.mk ids.credentialId none
          ids.projectId) hG, hrb env ids rfl,
          hrb env (ResourceIds.mk ids.credentialId none ids.projectId) rfl]
        exact decisionOf_same_when_truthy _ _ _ hp hp
      · rw [hmain env ids hG, hrb env ids rfl]
        have hl := (decisionOf_lookups ids (match u.projectRoles with
          | none => (false, [], [])
          | some prs =>
            if 0 < prs.length then
              (projectRoleGrants env scopes prs ids.projectId, [], [])
            else (false, [], []))).1
        rw [hl]
        cases hu : u.projectRoles with
        | none => rfl
        | some prs =>
          simp only []
          split <;> rfl
      · intro f
        rw [hmain (Env.mk env.hasGlobalScope env.rolesWithScope f
            env.sharedCredentialProjectId) ids hG,
          hmain env ids hG,
          hrb (Env.mk env.hasGlobalScope env.rolesWithScope f
            env.sharedCredentialProjectId) ids rfl,
          hrb env ids rfl]
        rfl

/-- Witness for C6 at a concrete input supplying both a projectId and a
workflowId. -/
theorem userHasScopes_projectId_precedence_witness :
    userHasScopes wEnvDeny wUser ["scope:a"] false
        (ResourceIds.mk none (some "W1") (some "P1")) =
      userHasScopes wEnvDeny wUser ["scope:a"] false
        (ResourceIds.mk none none (some "P1")) :=
  (userHasScopes_projectId_precedence wEnvDeny wUser ["scope:a"] false
      (ResourceIds.mk none (some "W1") (some "P1")) rfl).1

/-- C4: with the global check failing and globalOnly false, for a user
whose projectRoles list contains the entry with project P and role R (and
no conflicting role for P, per the at-most-one-role-per-project data
invariant), a caller supplying the explicit non-empty projectId P is
granted exactly when R lies in rolesWithScope at kind project; and
supplying an explicit projectId holding no entry yields false. -/
theorem userHasScopes_explicit_projectId (env : Env) (u : User)
    (scopes : List String) (prs : List ProjectRoleAssignment)
    (P R : String) (ids : ResourceIds)
    (hG : env.hasGlobalScope u.globalRole scopes = false)
    (hroles : u.projectRoles = some prs)
    (hmem : ProjectRoleAssignment.mk P R ∈ prs)
    (huniq : ∀ pr ∈ prs, pr.projectId = P → pr.role = R)
    (hP : P ≠ "")
    (hid : ids.projectId = some P) :
    ((userHasScopes env u scopes false ids).result = CheckResult.granted true
      ↔ (env.rolesWithScope "project" scopes).contains R = true) ∧
    (∀ Q : String, Q ≠ "" → (∀ pr ∈ prs, pr.projectId ≠ Q) →
      (userHasScopes env u scopes false
          (ResourceIds.mk ids.credentialId ids.workflowId (some Q))).result =
        CheckResult.granted false) := by
  have hlen : 0 < prs.length := List.length_pos_of_mem hmem
  have hp : truthy ids.projectId = true := by simp [truthy, hid, hP]
  constructor
  · obtain ⟨pr, hfindeq⟩ :
        ∃ pr, prs.find? (fun x => x.projectId == P) = some pr := by
      cases hf : prs.find? (fun x => x.projectId == P) with
      | some pr => exact ⟨pr, rfl⟩
      | none =>
        rw [List.find?_eq_none] at hf
        have := hf (ProjectRoleAssignment.mk P R) hmem
        simp at this
    have hprid : pr.projectId = P := by
      simpa using List.find?_some hfindeq
    have hprrole : pr.role = R :=
      huniq pr (List.mem_of_find?_eq_some hfindeq) hprid
    have hPb : (P == "") = false := by simpa using hP
    have hgr : projectRoleGrants env scopes prs (some P) =
        (env.rolesWithScope "project" scopes).contains R := by
      simp [projectRoleGrants, hPb, hfindeq, hprrole]
    have hbr : projectRolesBranch env scopes u ids =
        ((env.rolesWithScope "project" scopes).contains R, [], []) := by
      rw [projectRolesBranch_some env scopes u ids prs hroles, if_pos hlen,
        resolveAndEvaluate_truthy_projectId env scopes prs ids hp, hid, hgr]
    have hmain : userHasScopes env u scopes false ids =
        decisionOf ids ((env.rolesWithScope "project" scopes).contains R,
          [], []) := by
      simp [userHasScopes, hG, hbr]
    rw [hmain]
    have hres := decisionOf_result_granted ids
      ((env.rolesWithScope "project" scopes).contains R, [], [])
      (by simp [hp])
    rw [hres]
    cases hc : (env.rolesWithScope "project" scopes).contains R <;> simp
  · intro Q hQ hnone
    have hp2 : truthy (ResourceIds.mk ids.credentialId ids.workflowId
        (some Q)).projectId = true := by simp [truthy, hQ]
    have hfind2 : prs.find? (fun x => x.projectId == Q) = none := by
      rw [List.find?_eq_none]
      intro x hx
      simpa using hnone x hx
    have hQb : (Q == "") = false := by simpa using hQ
    have hgr2 : projectRoleGrants env scopes prs (some Q) = false := by
      simp [projectRoleGrants, hQb, hfind2]
    have hbr2 : projectRolesBranch env scopes u
        (ResourceIds.mk ids.credentialId ids.workflowId (some Q)) =
        (false, [], []) := by
      rw [projectRolesBranch_some env scopes u _ prs hroles, if_pos hlen,
        resolveAndEvaluate_truthy_projectId env scopes prs _ hp2]
      simpa using hgr2
    have hmain2 : userHasScopes env u scopes false
        (ResourceIds.mk ids.credentialId ids.workflowId (some Q)) =
        decisionOf (ResourceIds.mk ids.credentialId ids.workflowId (some Q))
          (false, [], []) := by
      simp [userHasScopes, hG, hbr2]
    rw [hmain2]
    have hres2 := decisionOf_result_granted
      (ResourceIds.mk ids.credentialId ids.workflowId (some Q))
      (false, [], []) (by simp [hp2])
    rw [hres2]

/-- Witness for C4: a concrete user with role admin in project P1, the
caller supplying projectId P1, is granted; supplying P2 is denied. -/
theorem userHasScopes_explicit_projectId_witness :
    (userHasScopes wEnvDeny wUser ["scope:a"] false
        (ResourceIds.mk none none (some "P1"))).result =
      CheckResult.granted true ∧
    (userHasScopes wEnvDeny wUser ["scope:a"] false
        (ResourceIds.mk none none (some "P2"))).result =
      CheckResult.granted false := by
  have h := userHasScopes_explicit_projectId wEnvDeny wUser ["scope:a"]
    [ProjectRoleAssignment.mk "P1" "admin"] "P1" "admin"
    (ResourceIds.mk none none (some "P1")) rfl rfl (by decide) (by decide)
    (by decide) rfl
  exact ⟨h.1.mpr rfl, h.2 "P2" (by decide) (by decide)⟩

/-- C5: with the global check failing, globalOnly false and a non-empty
projectRoles list, when no truthy projectId is supplied but a truthy
workflowId (respectively credentialId) is, the corresponding sharing
record is read by that id; when a record with a non-empty projectId is
found, role evaluation proceeds against that project and its boolean is
returned; when no record is found (and no further identifier resolves)
the result is the plain boolean false, not an error. -/
theorem userHasScopes_lookup_resolution (env : Env) (u : User)
    (scopes : List String) (prs : List ProjectRoleAssignment)
    (ids : ResourceIds)
    (hG : env.hasGlobalScope u.globalRole scopes = false)
    (hroles : u.projectRoles = some prs) (hne : prs ≠ []) :
    (∀ w : String, ids.workflowId = some w → w ≠ "" →
      truthy ids.projectId = false →
      ((userHasScopes env u scopes false ids).workflowLookups = [w] ∧
      (∀ pid : String, env.sharedWorkflowProjectId w = some pid → pid ≠ "" →
        (userHasScopes env u scopes false ids).result =
          CheckResult.granted (projectRoleGrants env scopes prs (some pid))) ∧
      (env.sharedWorkflowProjectId w = none →
        truthy ids.credentialId = false →
        (userHasScopes env u scopes false ids).result =
          CheckResult.granted false))) ∧
    (∀ c : String, ids.credentialId = some c → c ≠ "" →
      truthy ids.projectId = false → truthy ids.workflowId = false →
      ((userHasScopes env u scopes false ids).credentialLookups = [c] ∧
      (∀ pid : String, env.sharedCredentialProjectId c = some pid →
        pid ≠ "" →
        (userHasScopes env u scopes false ids).result =
          CheckResult.granted (projectRoleGrants env scopes prs (some pid))) ∧
      (env.sharedCredentialProjectId c = none →
        (userHasScopes env u scopes false ids).result =
          CheckResult.granted false))) := by
  have hlen : 0 < prs.length := List.length_pos.mpr hne
  have hbr : projectRolesBranch env scopes u ids =
      resolveAndEvaluate env scopes prs ids := by
    rw [projectRolesBranch_some env scopes u ids prs hroles, if_pos hlen]
  have hmain : userHasScopes env u scopes false ids =
      decisionOf ids (resolveAndEvaluate env scopes prs ids) := by
    simp [userHasScopes, hG, hbr]
  constructor
  · intro w hw hwne hp
    have hwt : truthy ids.workflowId = true := by simp [truthy, hw, hwne]
    have hany : (truthy ids.projectId || truthy ids.workflowId
        || truthy ids.credentialId) = true := by simp [hwt]
    have hs1 : resolveViaWorkflow env ids.projectId ids.workflowId =
        (match env.sharedWorkflowProjectId w with
         | some pid => (some pid, [w])
         | none => (ids.projectId, [w])) := by
      rw [hw]
      exact resolveViaWorkflow_active env ids.projectId w hp hwne
    refine ⟨?_, ?_, ?_⟩
    · rw [hmain, (decisionOf_lookups ids _).1]
      simp only [resolveAndEvaluate]
      cases hf : env.sharedWorkflowProjectId w <;> simp [hs1, hf]
    · intro pid hf hpid
      have hrae : resolveAndEvaluate env scopes prs ids =
          (projectRoleGrants env scopes prs (some pid), [w], []) := by
        have hs1f : resolveViaWorkflow env ids.projectId ids.workflowId =
            (some pid, [w]) := by rw [hs1, hf]
        have hskip := resolveViaCredential_skip env (some pid)
          ids.credentialId (by simp [truthy, hpid])
        simp [resolveAndEvaluate, hs1f, hskip]
      rw [hmain, hrae]
      exact decisionOf_result_granted ids _ hany
    · intro hf hc
      have hrae : resolveAndEvaluate env scopes prs ids =
          (false, [w], []) := by
        have hs1n : resolveViaWorkflow env ids.projectId ids.workflowId =
            (ids.projectId, [w]) := by rw [hs1, hf]
        have hfalsy := resolveViaCredential_falsy env ids.projectId
          ids.credentialId hc
        have hg0 := projectRoleGrants_falsy env scopes prs ids.projectId hp
        simp [resolveAndEvaluate, hs1n, hfalsy, hg0]
      rw [hmain, hrae]
      exact decisionOf_result_granted ids _ hany
  · intro c hc hcne hp hwf
    have hct : truthy ids.credentialId = true := by simp [truthy, hc, hcne]
    have hany : (truthy ids.projectId || truthy ids.workflowId
        || truthy ids.credentialId) = true := by simp [hct]
    have hs1 : resolveViaWorkflow env ids.projectId ids.workflowId =
        (ids.projectId, []) :=
      resolveViaWorkflow_falsy env ids.projectId ids.workflowId hwf
    have hs2 : resolveViaCredential env ids.projectId ids.credentialId =
        (match env.sharedCredentialProjectId c with
         | some pid => (some pid, [c])
         | none => (ids.projectId, [c])) := by
      rw [hc]
      exact resolveViaCredential_active env ids.projectId c hp hcne
    refine ⟨?_, ?_, ?_⟩
    · rw [hmain, (decisionOf_lookups ids _).2]
      simp only [resolveAndEvaluate]
      cases hf : env.sharedCredentialProjectId c <;> simp [hs1, hs2, hf]
    · intro pid hf hpid
      have hrae : resolveAndEvaluate env scopes prs ids =
          (projectRoleGrants env scopes prs (some pid), [], [c]) := by
        have hs2f : resolveViaCredential env ids.projectId ids.credentialId =
            (some pid, [c]) := by rw [hs2, hf]
        simp [resolveAndEvaluate, hs1, hs2f]
      rw [hmain, hrae]
      exact decisionOf_result_granted ids _ hany
    · intro hf
      have hrae : resolveAndEvaluate env scopes prs ids =
          (false, [], [c]) := by
        have hs2n : resolveViaCredential env ids.projectId ids.credentialId =
            (ids.projectId, [c]) := by rw [hs2, hf]
        have hg0 := projectRoleGrants_falsy env scopes prs ids.projectId hp
        simp [resolveAndEvaluate, hs1, hs2n, hg0]
      rw [hmain, hrae]
      exact decisionOf_result_granted ids _ hany

/-- Witness for C5: resolution of workflow W1 through the sharing record
reads the repository at W1 and grants through project P1. -/
theorem userHasScopes_lookup_resolution_witness :
    (userHasScopes wEnvDeny wUser ["scope:a"] false
        (ResourceIds.mk none (some "W1") none)).workflowLookups = ["W1"] ∧
    (userHasScopes wEnvDeny wUser ["scope:a"] false
        (ResourceIds.mk none (some "W1") none)).result =
      CheckResult.granted true := by
  have h := (userHasScopes_lookup_resolution wEnvDeny wUser ["scope:a"]
      [ProjectRoleAssignment.mk "P1" "admin"]
      (ResourceIds.mk none (some "W1") none) rfl rfl (by decide)).1
    "W1" rfl (by decide) rfl
  refine ⟨h.1, ?_⟩
  rw [h.2.1 "P1" rfl (by decide)]
  rfl

/-- A concrete environment agreeing with wEnvDeny on the global check, the
two sharing lookups and the grant mapping at kind project, but differing
from it at every other resource kind. -/
def wEnvAlt : Env :=
  Env.mk (fun _ _ => false)
    (fun k _ => if k == "project" then ["admin"] else ["ghost"])
    (fun w => if w == "W1" then some "P1" else none)
    (fun c => if c == "C1" then some "P1" else none)

/-- C10: two environments agreeing on the global check, on the two sharing
lookups, and on rolesWithScope at resource kind project yield identical
outcomes on every input, whatever rolesWithScope yields at other kinds. -/
theorem userHasScopes_grants_kind_project_only (env1 env2 : Env) (u : User)
    (scopes : List String) (g : Bool) (ids : ResourceIds)
    (h1 : env1.hasGlobalScope = env2.hasGlobalScope)
    (h2 : env1.sharedWorkflowProjectId = env2.sharedWorkflowProjectId)
    (h3 : env1.sharedCredentialProjectId = env2.sharedCredentialProjectId)
    (h4 : env1.rolesWithScope "project" = env2.rolesWithScope "project") :
    userHasScopes env1 u scopes g ids = userHasScopes env2 u scopes g ids := by
  unfold userHasScopes
  rw [h1, projectRolesBranch_congr env1 env2 scopes u ids h2 h3
    (congrFun h4 scopes)]

/-- Witness for C10: the two concrete environments differing only away
from kind project give the same outcome. -/
theorem userHasScopes_grants_kind_project_only_witness :
    userHasScopes wEnvDeny wUser ["scope:a"] false
        (ResourceIds.mk none none (some "P1")) =
      userHasScopes wEnvAlt wUser ["scope:a"] false
        (ResourceIds.mk none none (some "P1")) :=
  userHasScopes_grants_kind_project_only wEnvDeny wEnvAlt wUser ["scope:a"]
    false (ResourceIds.mk none none (some "P1")) rfl rfl rfl rfl

/-- Witness for C9 at a concrete input supplying both lookup ids. -/
theorem userHasScopes_no_lookup_without_roles_witness :
    (userHasScopes wEnvDeny (User.mk "viewer" (some [])) ["scope:a"] false
        (ResourceIds.mk (some "C1") (some "W1") none)).workflowLookups = [] ∧
    (userHasScopes wEnvDeny (User.mk "viewer" (some [])) ["scope:a"] false
        (ResourceIds.mk (some "C1") (some "W1") none)).credentialLookups = [] :=
  userHasScopes_no_lookup_without_roles wEnvDeny (User.mk "viewer" (some []))
    ["scope:a"] (ResourceIds.mk (some "C1") (some "W1") none) rfl (Or.inr rfl)

end CheckAccess
